import Mathlib

/-!
Shallow embedding of the elegoo-smart-car-rudn firmware core
(src/clock.rs, src/hc_sr04_distance_sensor.rs, src/servo.rs,
src/line_tracker.rs) and proofs of its specification properties.

Machine integers are modelled as `Nat` with an explicit modulus where the
source's fixed-width arithmetic could wrap (`u64` for the millisecond
counter and the distance conversions, `u32` for the servo delay).

The ultrasonic ranger's two busy-wait loops are modelled in discrete time:
the echo input is a function from time (in 4 µs hardware-counter ticks,
counted from the timer reset that ends the trigger phase) to its Boolean
level, and each loop iteration observes the echo level and the counter at
one tick.  Within one iteration the echo pin is read before the counter is
compared against the timeout threshold, exactly as in the source.
-/

/-! Constants and state of src/clock.rs.  The counter is a `u64` cell;
an operation is modelled as a function on the counter value. -/

def PRESCALER : Nat := 64

def TIMER_COUNTS : Nat := 250

/-- Number of milliseconds that pass between timer overflows,
`PRESCALER * TIMER_COUNTS / 16000` as in src/clock.rs. -/
def MILLIS_INCREMENT : Nat := PRESCALER * TIMER_COUNTS / 16000

/-- Modulus of the Rust `u64` type. -/
def U64_MOD : Nat := 2 ^ 64

/-- Counter value established by `millis_init` (it writes 0 into
`MILLIS_COUNTER`; the timer configuration itself has no effect on the
counter value). -/
def millis_init_counter : Nat := 0

/-- Effect of one `TIMER0_COMPA` interrupt on the counter:
`counter_cell.set(counter + MILLIS_INCREMENT)` in `u64` arithmetic. -/
def timer0_compa (c : Nat) : Nat := (c + MILLIS_INCREMENT) % U64_MOD

/-- The read accessor `millis()`: returns the counter and leaves it
unchanged.  First component: returned value; second: counter afterwards. -/
def millis (c : Nat) : Nat × Nat := (c, c)

/-- The reset accessor `reset_millis()`: sets the counter to zero. -/
def reset_millis (_c : Nat) : Nat := 0

/-- The operations that touch the millisecond counter. -/
inductive ClockOp where
  | tick
  | reset
  | read
deriving DecidableEq

/-- Effect of one clock operation on the counter state. -/
def clockStep (c : Nat) : ClockOp → Nat
  | ClockOp.tick => timer0_compa c
  | ClockOp.reset => reset_millis c
  | ClockOp.read => (millis c).2

/-- Run a sequence of clock operations from a counter state. -/
def clockRun (c : Nat) : List ClockOp → Nat
  | [] => c
  | op :: ops => clockRun (clockStep c op) ops

/-! Data model of src/hc_sr04_distance_sensor.rs. -/

/-- Modulus of the Rust `u16` type (the TC1 counter register and the
`ticks` field of `Distance` are 16-bit). -/
def U16_MOD : Nat := 2 ^ 16

/-- A distance measurement value: the number of timer ticks spent by the
echo pin being high (a `u16` in the source). -/
structure Distance where
  ticks : Nat
deriving DecidableEq

/-- Constructor `Distance::new`. -/
def Distance.new (ticks : Nat) : Distance := ⟨ticks⟩

/-- Conversion `Distance::to_um`: `self.ticks as u64 * 6805` in `u64`
arithmetic. -/
def Distance.to_um (d : Distance) : Nat := d.ticks * 6805 % U64_MOD

/-- Conversion `Distance::to_mm`: `self.to_um() / 1000` in `u64`
arithmetic (truncating division). -/
def Distance.to_mm (d : Distance) : Nat := d.to_um / 1000

/-- Result variants of a distance measurement. -/
inductive DistanceMeasurement where
  | Infinity
  | Unknown
  | Measured (d : Distance)
deriving DecidableEq

/-- Rise-phase loop of `HC_SR04::get_distance`
(`while echo.is_low() { if tcnt1 > 188 { return Unknown } }`).
Poll at counter reading `k`: read the echo level at time `k`; if high,
exit with the reading and `true`; otherwise compare the counter against
the 188-tick threshold and give up with `false` once it is exceeded.
Returns the counter reading at loop exit and whether a rising edge was
seen. -/
def risePhase (echo : Nat → Bool) (k : Nat) : Nat × Bool :=
  if echo k then (k, true)
  else if h : 188 < k then (k, false)
  else risePhase echo (k + 1)
termination_by 189 - k
decreasing_by simp_wf; omega

/-- Fall-phase loop of `HC_SR04::get_distance`
(`while echo.is_high() { if tcnt1 > 25000 { return Infinity } }` followed
by a final counter read).  The counter was reset when the rising edge was
observed at absolute time `r`, so the poll at counter reading `k` reads
the echo level at absolute time `r + k`.  Returns the counter reading at
loop exit and whether a falling edge was seen. -/
def fallPhase (echo : Nat → Bool) (r k : Nat) : Nat × Bool :=
  if echo (r + k) = false then (k, true)
  else if h : 25000 < k then (k, false)
  else fallPhase echo r (k + 1)
termination_by 25001 - k
decreasing_by simp_wf; omega

/-- The measurement routine `HC_SR04::get_distance` over an echo input
trace.  Time 0 is the timer reset that follows the 10 µs trigger pulse.
If the rise loop times out (flag `false`) the early return yields
`Unknown`; otherwise the timer is reset at the rising edge (absolute
time `rise.1`) and the fall loop either times out, in which case the
early return yields `Infinity`, or exits at a falling edge, in which
case the final counter read `fall.1` is returned as `Measured`. -/
def get_distance (echo : Nat → Bool) : DistanceMeasurement :=
  let rise := risePhase echo 0
  if rise.2 then
    let fall := fallPhase echo rise.1 0
    if fall.2 then DistanceMeasurement.Measured (Distance.new fall.1)
    else DistanceMeasurement.Infinity
  else DistanceMeasurement.Unknown

/-! Model of src/servo.rs. -/

/-- Modulus of the Rust `u32` type (the `value` field of `ServoPhase`). -/
def U32_MOD : Nat := 2 ^ 32

/-- The `value` computed by `ServoPhase::from_angle`:
`((angle as u32) * 1000) / 180`.  For `angle < 256` (a `u8`) the product
is at most 255000, far below `2^32`, so the `u32` arithmetic is exact. -/
def ServoPhase.from_angle (angle : Nat) : Nat := angle * 1000 / 180

/-- The final delay argument `1000 - phase.value` of `Servo::write_phase`,
as wrapping `u32` subtraction. -/
def write_phase_final_delay (value : Nat) : Nat :=
  (1000 + U32_MOD - value) % U32_MOD

/-! Model of src/line_tracker.rs. -/

/-- State of a single line tracker sensor. -/
inductive LineState where
  | Light
  | Dark
deriving DecidableEq

/-- The result of measuring the three line trackers together. -/
structure LinePosition where
  left : LineState
  mid : LineState
  right : LineState
deriving DecidableEq

/-- The direction that the robot is offset from the line. -/
inductive LineBiasDirection where
  | VeryLeft
  | SlightlyLeft
  | Center
  | SlightlyRight
  | VeryRight
  | NotOnLine
  | OnPerpendicularLine
deriving DecidableEq

/-- Classifier `LinePosition::get_bias_direction_dark` (dark line on a
light background). -/
def LinePosition.get_bias_direction_dark (p : LinePosition) : LineBiasDirection :=
  match p.left, p.mid, p.right with
  | LineState.Light, LineState.Light, LineState.Dark => LineBiasDirection.VeryRight
  | LineState.Light, LineState.Dark, LineState.Dark => LineBiasDirection.SlightlyRight
  | LineState.Light, LineState.Dark, LineState.Light => LineBiasDirection.Center
  | LineState.Dark, LineState.Dark, LineState.Light => LineBiasDirection.SlightlyLeft
  | LineState.Dark, LineState.Light, LineState.Light => LineBiasDirection.VeryLeft
  | LineState.Light, LineState.Light, LineState.Light => LineBiasDirection.NotOnLine
  | LineState.Dark, LineState.Dark, LineState.Dark => LineBiasDirection.OnPerpendicularLine
  | LineState.Dark, LineState.Light, LineState.Dark => LineBiasDirection.NotOnLine

/-- Classifier `LinePosition::get_bias_direction_light` (light line on a
dark background). -/
def LinePosition.get_bias_direction_light (p : LinePosition) : LineBiasDirection :=
  match p.left, p.mid, p.right with
  | LineState.Dark, LineState.Dark, LineState.Light => LineBiasDirection.VeryRight
  | LineState.Dark, LineState.Light, LineState.Light => LineBiasDirection.SlightlyRight
  | LineState.Dark, LineState.Light, LineState.Dark => LineBiasDirection.Center
  | LineState.Light, LineState.Light, LineState.Dark => LineBiasDirection.SlightlyLeft
  | LineState.Light, LineState.Dark, LineState.Dark => LineBiasDirection.VeryLeft
  | LineState.Dark, LineState.Dark, LineState.Dark => LineBiasDirection.NotOnLine
  | LineState.Light, LineState.Light, LineState.Light => LineBiasDirection.OnPerpendicularLine
  | LineState.Light, LineState.Dark, LineState.Light => LineBiasDirection.NotOnLine

/-- Flip a single sensor state between `Light` and `Dark`. -/
def LineState.invert : LineState → LineState
  | LineState.Light => LineState.Dark
  | LineState.Dark => LineState.Light

/-- Flip each of the three sensor states of a `LinePosition`. -/
def LinePosition.invert (p : LinePosition) : LinePosition :=
  ⟨p.left.invert, p.mid.invert, p.right.invert⟩

/-! Helper lemmas about the ranger's two polling loops. -/

/-- One rise-phase poll that sees the echo high exits with the current
counter reading. -/
lemma risePhase_high (echo : Nat → Bool) (k : Nat) (h : echo k = true) :
    risePhase echo k = (k, true) := by
  unfold risePhase
  simp [h]

/-- One rise-phase poll that sees the echo low with the counter past the
threshold gives up. -/
lemma risePhase_timeout_step (echo : Nat → Bool) (k : Nat)
    (h : echo k = false) (h2 : 188 < k) :
    risePhase echo k = (k, false) := by
  unfold risePhase
  simp [h, h2]

/-- One rise-phase poll that sees the echo low with the counter within
the threshold continues to the next tick. -/
lemma risePhase_cont (echo : Nat → Bool) (k : Nat)
    (h : echo k = false) (h2 : ¬ 188 < k) :
    risePhase echo k = risePhase echo (k + 1) := by
  conv_lhs => unfold risePhase
  simp [h, h2]

/-- One fall-phase poll that sees the echo low exits with the current
counter reading. -/
lemma fallPhase_low (echo : Nat → Bool) (r k : Nat)
    (h : echo (r + k) = false) :
    fallPhase echo r k = (k, true) := by
  unfold fallPhase
  simp [h]

/-- One fall-phase poll that sees the echo high with the counter past the
threshold gives up. -/
lemma fallPhase_timeout_step (echo : Nat → Bool) (r k : Nat)
    (h : echo (r + k) = true) (h2 : 25000 < k) :
    fallPhase echo r k = (k, false) := by
  unfold fallPhase
  simp [h, h2]

/-- One fall-phase poll that sees the echo high with the counter within
the threshold continues to the next tick. -/
lemma fallPhase_cont (echo : Nat → Bool) (r k : Nat)
    (h : echo (r + k) = true) (h2 : ¬ 25000 < k) :
    fallPhase echo r k = fallPhase echo r (k + 1) := by
  conv_lhs => unfold fallPhase
  simp [h, h2]

/-- If the echo is low before time `t` and high at time `t ≤ 189`, the
rise loop started at any reading `k ≤ t` detects the edge at reading `t`. -/
lemma risePhase_reach (echo : Nat → Bool) (t : Nat) (ht : t ≤ 189)
    (hlow : ∀ T, T < t → echo T = false) (hhigh : echo t = true) :
    ∀ n k, k + n = t → risePhase echo k = (t, true) := by
  intro n
  induction n with
  | zero =>
    intro k hk
    have hkt : k = t := by omega
    subst hkt
    exact risePhase_high echo k hhigh
  | succ n ih =>
    intro k hk
    have hke : echo k = false := hlow k (by omega)
    have hkle : ¬ 188 < k := by omega
    rw [risePhase_cont echo k hke hkle]
    exact ih (k + 1) (by omega)

/-- If the echo is low at every reading up to and including 189 (the
first reading past the 188-tick threshold), the rise loop started at any
reading `k ≤ 189` exits with reading 189 and no edge. -/
lemma risePhase_none (echo : Nat → Bool)
    (hlow : ∀ T, T ≤ 189 → echo T = false) :
    ∀ n k, k + n = 189 → risePhase echo k = (189, false) := by
  intro n
  induction n with
  | zero =>
    intro k hk
    have hkt : k = 189 := by omega
    subst hkt
    exact risePhase_timeout_step echo 189 (hlow 189 (by omega)) (by omega)
  | succ n ih =>
    intro k hk
    have hke : echo k = false := hlow k (by omega)
    have hkle : ¬ 188 < k := by omega
    rw [risePhase_cont echo k hke hkle]
    exact ih (k + 1) (by omega)

/-- If the echo stays high for `t2` ticks after the rising edge at `r`
and is low at tick `t2 ≤ 25001`, the fall loop detects the falling edge
at reading `t2`. -/
lemma fallPhase_reach (echo : Nat → Bool) (r t2 : Nat) (ht : t2 ≤ 25001)
    (hhigh : ∀ j, j < t2 → echo (r + j) = true)
    (hlow : echo (r + t2) = false) :
    ∀ n k, k + n = t2 → fallPhase echo r k = (t2, true) := by
  intro n
  induction n with
  | zero =>
    intro k hk
    have hkt : k = t2 := by omega
    subst hkt
    exact fallPhase_low echo r k hlow
  | succ n ih =>
    intro k hk
    have hke : echo (r + k) = true := hhigh k (by omega)
    have hkle : ¬ 25000 < k := by omega
    rw [fallPhase_cont echo r k hke hkle]
    exact ih (k + 1) (by omega)

/-- If the echo stays high at every reading up to and including 25001
(the first reading past the 25000-tick threshold), the fall loop exits
with reading 25001 and no falling edge. -/
lemma fallPhase_none (echo : Nat → Bool) (r : Nat)
    (hhigh : ∀ j, j ≤ 25001 → echo (r + j) = true) :
    ∀ n k, k + n = 25001 → fallPhase echo r k = (25001, false) := by
  intro n
  induction n with
  | zero =>
    intro k hk
    have hkt : k = 25001 := by omega
    subst hkt
    exact fallPhase_timeout_step echo r 25001 (hhigh 25001 (by omega)) (by omega)
  | succ n ih =>
    intro k hk
    have hke : echo (r + k) = true := hhigh k (by omega)
    have hkle : ¬ 25000 < k := by omega
    rw [fallPhase_cont echo r k hke hkle]
    exact ih (k + 1) (by omega)

/-- The rise loop started at reading `k ≤ 189` exits with a counter
reading of at most 189, on every trace. -/
lemma risePhase_fst_le (echo : Nat → Bool) :
    ∀ n k, k + n = 189 → (risePhase echo k).1 ≤ 189 := by
  intro n
  induction n with
  | zero =>
    intro k hk
    have hkt : k = 189 := by omega
    subst hkt
    cases hc : echo 189 with
    | true => rw [risePhase_high echo 189 hc]
    | false => rw [risePhase_timeout_step echo 189 hc (by omega)]
  | succ n ih =>
    intro k hk
    cases hc : echo k with
    | true => rw [risePhase_high echo k hc]; omega
    | false =>
      rw [risePhase_cont echo k hc (by omega)]
      exact ih (k + 1) (by omega)

/-- The fall loop started at reading `k ≤ 25001` exits with a counter
reading of at most 25001, on every trace. -/
lemma fallPhase_fst_le (echo : Nat → Bool) (r : Nat) :
    ∀ n k, k + n = 25001 → (fallPhase echo r k).1 ≤ 25001 := by
  intro n
  induction n with
  | zero =>
    intro k hk
    have hkt : k = 25001 := by omega
    subst hkt
    cases hc : echo (r + 25001) with
    | false => rw [fallPhase_low echo r 25001 hc]
    | true => rw [fallPhase_timeout_step echo r 25001 hc (by omega)]
  | succ n ih =>
    intro k hk
    cases hc : echo (r + k) with
    | false => rw [fallPhase_low echo r k hc]; omega
    | true =>
      rw [fallPhase_cont echo r k hc (by omega)]
      exact ih (k + 1) (by omega)

/-- Case lemma: if the rise loop exits without seeing the echo high,
`get_distance` returns `Unknown`. -/
lemma get_distance_unknown (echo : Nat → Bool) (x : Nat)
    (hr : risePhase echo 0 = (x, false)) :
    get_distance echo = DistanceMeasurement.Unknown := by
  simp only [get_distance, hr]
  rfl

/-- Case lemma: if the rise loop sees the echo high at reading `r` and
the fall loop then sees it low at reading `t`, `get_distance` returns
`Measured(t)`. -/
lemma get_distance_measured (echo : Nat → Bool) (r t : Nat)
    (hr : risePhase echo 0 = (r, true))
    (hf : fallPhase echo r 0 = (t, true)) :
    get_distance echo = DistanceMeasurement.Measured (Distance.new t) := by
  simp only [get_distance, hr]
  show (if (fallPhase echo r 0).2 then
      DistanceMeasurement.Measured (Distance.new (fallPhase echo r 0).1)
    else DistanceMeasurement.Infinity) = DistanceMeasurement.Measured (Distance.new t)
  rw [hf]
  rfl

/-- Case lemma: if the rise loop sees the echo high at reading `r` and
the fall loop then times out, `get_distance` returns `Infinity`. -/
lemma get_distance_infinity (echo : Nat → Bool) (r x : Nat)
    (hr : risePhase echo 0 = (r, true))
    (hf : fallPhase echo r 0 = (x, false)) :
    get_distance echo = DistanceMeasurement.Infinity := by
  simp only [get_distance, hr]
  show (if (fallPhase echo r 0).2 then
      DistanceMeasurement.Measured (Distance.new (fallPhase echo r 0).1)
    else DistanceMeasurement.Infinity) = DistanceMeasurement.Infinity
  rw [hf]
  rfl

/-- The millisecond increment constant evaluates to 1 for the configured
prescaler 64 and compare value 250. -/
lemma millis_increment_eq : MILLIS_INCREMENT = 1 := by decide

/-- A run of clock ticks adds `n * MILLIS_INCREMENT` to the counter in
`u64` arithmetic. -/
lemma clockRun_replicate_tick :
    ∀ (n : Nat) (c : Nat), c < U64_MOD →
      clockRun c (List.replicate n ClockOp.tick) =
        (c + n * MILLIS_INCREMENT) % U64_MOD := by
  intro n
  induction n with
  | zero =>
    intro c hc
    simp [clockRun, Nat.mod_eq_of_lt hc]
  | succ n ih =>
    intro c hc
    have hmod : (c + MILLIS_INCREMENT) % U64_MOD < U64_MOD :=
      Nat.mod_lt _ (by norm_num [U64_MOD])
    rw [List.replicate_succ]
    show clockRun (clockStep c ClockOp.tick) (List.replicate n ClockOp.tick) = _
    rw [show clockStep c ClockOp.tick = (c + MILLIS_INCREMENT) % U64_MOD from rfl]
    rw [ih _ hmod]
    rw [Nat.mod_add_mod]
    congr 1
    ring

/-! Claim theorems. -/

/-- C1: for every input trace in which the echo input rises after `t1`
ticks (`t1` within the 188-tick rise window) and falls after an
additional `t2` ticks (`t2` within the 25000-tick fall window),
`HC_SR04::get_distance` returns `Measured(t2)`: the hardware counter is
reset to zero at the rising edge, so the rise-phase duration `t1` is not
included in the reported tick count, only the high-duration of the echo
pulse. -/
theorem ranger_measured_excludes_rise_time (echo : Nat → Bool) (t1 t2 : Nat)
    (h1 : t1 ≤ 188) (h2 : 1 ≤ t2) (h3 : t2 ≤ 25000)
    (hlow : ∀ T, T < t1 → echo T = false)
    (hhigh : ∀ j, j < t2 → echo (t1 + j) = true)
    (hfall : echo (t1 + t2) = false) :
    get_distance echo = DistanceMeasurement.Measured (Distance.new t2) := by
  have ht1 : echo t1 = true := by simpa using hhigh 0 (by omega)
  have hr : risePhase echo 0 = (t1, true) :=
    risePhase_reach echo t1 (by omega) hlow ht1 t1 0 (by omega)
  have hf : fallPhase echo t1 0 = (t2, true) :=
    fallPhase_reach echo t1 t2 (by omega) hhigh hfall t2 0 (by omega)
  exact get_distance_measured echo t1 t2 hr hf

/-- Witness for C1: a pulse that rises at tick 2 and falls at tick 5 is
reported as 3 ticks (the width), not 5 (rise time plus width). -/
theorem ranger_measured_excludes_rise_time_witness :
    (∀ T, T < 2 → (fun T => decide (2 ≤ T ∧ T < 5)) T = false)
  ∧ (∀ j, j < 3 → (fun T => decide (2 ≤ T ∧ T < 5)) (2 + j) = true)
  ∧ ((fun T => decide (2 ≤ T ∧ T < 5)) (2 + 3) = false)
  ∧ get_distance (fun T => decide (2 ≤ T ∧ T < 5)) =
      DistanceMeasurement.Measured (Distance.new 3) :=
  ⟨by decide, by decide, by decide,
    ranger_measured_excludes_rise_time (fun T => decide (2 ≤ T ∧ T < 5)) 2 3
      (by decide) (by decide) (by decide) (by decide) (by decide) (by decide)⟩

/-- C2 (amended): if the echo input reads low at every poll up to and
including counter reading 189 (the first reading past the 188-tick
threshold), `HC_SR04::get_distance` returns `Unknown`, and the rise loop
exits with counter reading 189, so the fall phase is never entered and
the call is bounded by the rise timeout, not the 100 ms fall timeout. -/
theorem ranger_unknown_when_never_high (echo : Nat → Bool)
    (hlow : ∀ T, T ≤ 189 → echo T = false) :
    get_distance echo = DistanceMeasurement.Unknown
    ∧ (risePhase echo 0).1 = 189 := by
  have hr : risePhase echo 0 = (189, false) :=
    risePhase_none echo hlow 189 0 (by omega)
  constructor
  · exact get_distance_unknown echo 189 hr
  · rw [hr]

/-- Witness for C2: the constantly-low trace yields `Unknown`. -/
theorem ranger_unknown_when_never_high_witness :
    (∀ T, T ≤ 189 → (fun _ => false) T = false)
  ∧ get_distance (fun _ => false) = DistanceMeasurement.Unknown :=
  ⟨fun _ _ => rfl,
    (ranger_unknown_when_never_high (fun _ => false) (fun _ _ => rfl)).1⟩

/-- Counterexample for C2 as stated: the echo check precedes the timeout
check inside the loop body, so a trace that is low at every counter
reading within the 188-tick window but reads high at reading 189 (just
past the window) escapes the timeout: the result is `Measured(1)`, not
`Unknown`. -/
theorem ranger_unknown_window_cex :
    (∀ T, T ≤ 188 → (fun T => decide (T = 189)) T = false)
  ∧ get_distance (fun T => decide (T = 189)) =
      DistanceMeasurement.Measured (Distance.new 1)
  ∧ get_distance (fun T => decide (T = 189)) ≠ DistanceMeasurement.Unknown := by
  have hr : risePhase (fun T => decide (T = 189)) 0 = (189, true) :=
    risePhase_reach (fun T => decide (T = 189)) 189 (by omega)
      (fun T hT => by simp only [decide_eq_false_iff_not]; omega)
      (by decide) 189 0 (by omega)
  have hf : fallPhase (fun T => decide (T = 189)) 189 0 = (1, true) :=
    fallPhase_reach (fun T => decide (T = 189)) 189 1 (by omega)
      (fun j hj => by
        have hj0 : j = 0 := by omega
        subst hj0
        decide)
      (by decide) 1 0 (by omega)
  have hmeas : get_distance (fun T => decide (T = 189)) =
      DistanceMeasurement.Measured (Distance.new 1) :=
    get_distance_measured (fun T => decide (T = 189)) 189 1 hr hf
  exact ⟨fun T hT => by simp only [decide_eq_false_iff_not]; omega,
    hmeas, by rw [hmeas]; decide⟩

/-- C3: for every input trace in which the echo input rises within the
response window (low before the rising edge at `t1 ≤ 188`) and then
stays high through every poll of the fall phase up to and including the
first counter reading past the 25000-tick absolute range threshold,
`HC_SR04::get_distance` returns `Infinity`. -/
theorem ranger_infinity_when_echo_stuck_high (echo : Nat → Bool) (t1 : Nat)
    (h1 : t1 ≤ 188)
    (hlow : ∀ T, T < t1 → echo T = false)
    (hhigh : ∀ j, j ≤ 25001 → echo (t1 + j) = true) :
    get_distance echo = DistanceMeasurement.Infinity := by
  have ht1 : echo t1 = true := by simpa using hhigh 0 (by omega)
  have hr : risePhase echo 0 = (t1, true) :=
    risePhase_reach echo t1 (by omega) hlow ht1 t1 0 (by omega)
  have hf : fallPhase echo t1 0 = (25001, false) :=
    fallPhase_none echo t1 hhigh 25001 0 (by omega)
  exact get_distance_infinity echo t1 25001 hr hf

/-- Witness for C3: the constantly-high trace yields `Infinity`. -/
theorem ranger_infinity_when_echo_stuck_high_witness :
    (0 : Nat) ≤ 188
  ∧ (∀ j, j ≤ 25001 → (fun _ => true) (0 + j) = true)
  ∧ get_distance (fun _ => true) = DistanceMeasurement.Infinity :=
  ⟨by decide, fun _ _ => rfl,
    ranger_infinity_when_echo_stuck_high (fun _ => true) 0 (by decide)
      (fun T hT => absurd hT (Nat.not_lt_zero T)) (fun _ _ => rfl)⟩

/-- C4: immediately after `millis_init` the counter reads 0; after
exactly `n` `TIMER0_COMPA` invocations (and no reset) `millis()` reads
`n * MILLIS_INCREMENT` in the counter's `u64` arithmetic (exactly
`n * MILLIS_INCREMENT` whenever that product fits in a `u64`), with
`MILLIS_INCREMENT = PRESCALER * TIMER_COUNTS / 16000 = 1`; and after
`reset_millis`, `millis()` reads 0 regardless of the prior counter. -/
theorem clock_counts_interrupts :
    millis_init_counter = 0
  ∧ MILLIS_INCREMENT = 1
  ∧ (∀ n : Nat,
      (millis (clockRun millis_init_counter (List.replicate n ClockOp.tick))).1 =
        n * MILLIS_INCREMENT % U64_MOD)
  ∧ (∀ n : Nat, n * MILLIS_INCREMENT < U64_MOD →
      (millis (clockRun millis_init_counter (List.replicate n ClockOp.tick))).1 =
        n * MILLIS_INCREMENT)
  ∧ (∀ c : Nat, (millis (reset_millis c)).1 = 0) := by
  have hbase : ∀ n : Nat,
      clockRun millis_init_counter (List.replicate n ClockOp.tick) =
        n * MILLIS_INCREMENT % U64_MOD := by
    intro n
    have h := clockRun_replicate_tick n 0 (by norm_num [U64_MOD])
    simpa [millis_init_counter] using h
  refine ⟨rfl, millis_increment_eq, ?_, ?_, fun c => rfl⟩
  · intro n
    simpa [millis] using hbase n
  · intro n hn
    have h := hbase n
    simp [millis, h, Nat.mod_eq_of_lt hn]

/-- Witness for C4: three interrupts after initialization, the counter
reads 3. -/
theorem clock_counts_interrupts_witness :
    (3 : Nat) * MILLIS_INCREMENT < U64_MOD
  ∧ (millis (clockRun millis_init_counter (List.replicate 3 ClockOp.tick))).1 =
      3 * MILLIS_INCREMENT :=
  ⟨by norm_num [U64_MOD, MILLIS_INCREMENT, PRESCALER, TIMER_COUNTS],
    clock_counts_interrupts.2.2.2.1 3
      (by norm_num [U64_MOD, MILLIS_INCREMENT, PRESCALER, TIMER_COUNTS])⟩

/-- C5 (amended): for every `ticks : u16`, `Distance::to_um` returns
exactly `ticks * 6805` and `Distance::to_mm` returns
`(ticks * 6805) / 1000` with truncating division, computed exactly in
`u64` arithmetic with no overflow (maximum value
`65535 * 6805 = 445965675`, not the claimed 445995675); in particular
for `ticks = 147`, `to_um() = 1000335` and `to_mm() = 1000`. -/
theorem distance_conversion_exact :
    (∀ t : Nat, t < U16_MOD →
      (Distance.new t).to_um = t * 6805
      ∧ (Distance.new t).to_mm = t * 6805 / 1000
      ∧ t * 6805 ≤ 445965675)
  ∧ 65535 * 6805 = 445965675
  ∧ (Distance.new 147).to_um = 1000335
  ∧ (Distance.new 147).to_mm = 1000 := by
  refine ⟨?_, by norm_num, by decide, by decide⟩
  intro t ht
  norm_num [U16_MOD] at ht
  have h1 : t * 6805 ≤ 445965675 := by
    have h2 : t * 6805 ≤ 65535 * 6805 := Nat.mul_le_mul_right _ (by omega)
    omega
  have hum : (Distance.new t).to_um = t * 6805 := by
    simp only [Distance.to_um, Distance.new]
    exact Nat.mod_eq_of_lt (by norm_num [U64_MOD]; omega)
  exact ⟨hum, by simp only [Distance.to_mm, hum], h1⟩

/-- Witness for C5: evaluated at ticks = 147. -/
theorem distance_conversion_exact_witness :
    (147 : Nat) < U16_MOD ∧ (Distance.new 147).to_um = 147 * 6805 :=
  ⟨by norm_num [U16_MOD],
    (distance_conversion_exact.1 147 (by norm_num [U16_MOD])).1⟩

/-- Counterexample for C5 as stated: the claimed maximum value of the
micrometer conversion is off by 30000: `65535 * 6805` is 445965675, not
445995675 (and indeed `to_um` at the `u16` maximum evaluates to the
former). -/
theorem distance_max_value_cex :
    65535 * 6805 = 445965675
  ∧ (Distance.new 65535).to_um = 445965675
  ∧ 65535 * 6805 ≠ 445995675 := by
  refine ⟨by norm_num, by decide, by norm_num⟩

/-- C6: `Distance::to_mm` is monotonically non-decreasing in `ticks`
over the `u16` range; `Distance::to_um(0) = 0`; and for every ticks,
`to_mm(ticks) * 1000 ≤ to_um(ticks)` (round-trip consistency). -/
theorem distance_mm_monotone_consistent :
    (∀ t1 t2 : Nat, t1 ≤ t2 → t2 < U16_MOD →
      (Distance.new t1).to_mm ≤ (Distance.new t2).to_mm)
  ∧ (Distance.new 0).to_um = 0
  ∧ (∀ t : Nat, (Distance.new t).to_mm * 1000 ≤ (Distance.new t).to_um) := by
  refine ⟨?_, by decide, fun t => Nat.div_mul_le_self _ _⟩
  intro t1 t2 h12 h2
  norm_num [U16_MOD] at h2
  have e1 : (Distance.new t1).to_um = t1 * 6805 := by
    simp only [Distance.to_um, Distance.new]
    exact Nat.mod_eq_of_lt (by norm_num [U64_MOD]; nlinarith)
  have e2 : (Distance.new t2).to_um = t2 * 6805 := by
    simp only [Distance.to_um, Distance.new]
    exact Nat.mod_eq_of_lt (by norm_num [U64_MOD]; nlinarith)
  simp only [Distance.to_mm, e1, e2]
  exact Nat.div_le_div_right (Nat.mul_le_mul_right _ h12)

/-- Witness for C6: monotonicity applied at ticks 3 and 5. -/
theorem distance_mm_monotone_consistent_witness :
    (3 : Nat) ≤ 5 ∧ (5 : Nat) < U16_MOD
  ∧ (Distance.new 3).to_mm ≤ (Distance.new 5).to_mm :=
  ⟨by norm_num, by norm_num [U16_MOD],
    distance_mm_monotone_consistent.1 3 5 (by norm_num) (by norm_num [U16_MOD])⟩

/-- C7 (amended): `HC_SR04::get_distance` terminates on every input
trace (it is a total function of the trace in this model, where the
hardware counter advances across polls) and never blocks past its
timeouts: the rise loop exits with counter reading at most 189 (one tick
past the 188-tick threshold), the fall loop with at most 25001 (one tick
past the 25000-tick threshold), and the call always returns one of the
three result variants, any measured tick count being at most 25001. -/
theorem ranger_total_and_bounded (echo : Nat → Bool) (r : Nat) :
    (risePhase echo 0).1 ≤ 189
  ∧ (fallPhase echo r 0).1 ≤ 25001
  ∧ (get_distance echo = DistanceMeasurement.Unknown
    ∨ get_distance echo = DistanceMeasurement.Infinity
    ∨ ∃ t, t ≤ 25001
        ∧ get_distance echo = DistanceMeasurement.Measured (Distance.new t)) := by
  refine ⟨risePhase_fst_le echo 189 0 (by omega),
    fallPhase_fst_le echo r 25001 0 (by omega), ?_⟩
  rcases hc : risePhase echo 0 with ⟨r0, b⟩
  cases b with
  | false =>
    left
    exact get_distance_unknown echo r0 hc
  | true =>
    rcases hf : fallPhase echo r0 0 with ⟨t, b2⟩
    cases b2 with
    | false =>
      right; left
      exact get_distance_infinity echo r0 t hc hf
    | true =>
      right; right
      refine ⟨t, ?_, get_distance_measured echo r0 t hc hf⟩
      have hb := fallPhase_fst_le echo r0 25001 0 (by omega)
      rw [hf] at hb
      simpa using hb

/-- Counterexample for C7 as stated: on the constantly-low trace the
rise loop only exits at counter reading 189, which exceeds the claimed
188-tick bound; dually, on the constantly-high trace the fall loop only
exits at reading 25001, exceeding the claimed 25000-tick bound. -/
theorem ranger_loop_duration_cex :
    risePhase (fun _ => false) 0 = (189, false)
  ∧ ¬ (risePhase (fun _ => false) 0).1 ≤ 188
  ∧ fallPhase (fun _ => true) 0 0 = (25001, false)
  ∧ ¬ (fallPhase (fun _ => true) 0 0).1 ≤ 25000 := by
  have hrise : risePhase (fun _ => false) 0 = (189, false) :=
    risePhase_none (fun _ => false) (fun _ _ => rfl) 189 0 (by omega)
  have hfall : fallPhase (fun _ => true) 0 0 = (25001, false) :=
    fallPhase_none (fun _ => true) 0 (fun _ _ => rfl) 25001 0 (by omega)
  exact ⟨hrise, by rw [hrise]; decide, hfall, by rw [hfall]; decide⟩

/-- C8: the millisecond counter is only mutated by the interrupt handler
(which adds `MILLIS_INCREMENT` in `u64` arithmetic), and by
`millis_init`/`reset_millis` (which set it to zero); the read accessor
`millis()` returns the counter and leaves it unchanged, so any sequence
of reads preserves the counter. -/
theorem clock_counter_mutation_frame :
    (∀ c : Nat, (millis c).1 = c ∧ (millis c).2 = c)
  ∧ (∀ c : Nat, clockStep c ClockOp.read = c)
  ∧ (∀ (c : Nat) (ops : List ClockOp),
      (∀ op ∈ ops, op = ClockOp.read) → clockRun c ops = c)
  ∧ (∀ c : Nat, clockStep c ClockOp.tick = (c + MILLIS_INCREMENT) % U64_MOD)
  ∧ (∀ c : Nat, clockStep c ClockOp.reset = 0)
  ∧ millis_init_counter = 0 := by
  refine ⟨fun c => ⟨rfl, rfl⟩, fun c => rfl, ?_, fun c => rfl, fun c => rfl, rfl⟩
  intro c ops
  induction ops generalizing c with
  | nil => intro _; rfl
  | cons op ops ih =>
    intro h
    have hop : op = ClockOp.read := h op (List.mem_cons_self op ops)
    subst hop
    show clockRun (clockStep c ClockOp.read) ops = c
    exact ih c (fun o ho => h o (List.mem_cons_of_mem _ ho))

/-- Witness for C8: a run of two reads from counter value 7 leaves it
at 7. -/
theorem clock_counter_mutation_frame_witness :
    (∀ op ∈ [ClockOp.read, ClockOp.read], op = ClockOp.read)
  ∧ clockRun 7 [ClockOp.read, ClockOp.read] = 7 :=
  ⟨by decide,
    clock_counter_mutation_frame.2.2.1 7 [ClockOp.read, ClockOp.read] (by decide)⟩

/-- C9: for every angle up to 180, `ServoPhase::from_angle` yields a
value of at most 1000, so the final `u32` delay `1000 - value` in
`Servo::write_phase` does not wrap; for angle 255 (greater than 180) the
value is 1416 and the `u32` subtraction underflows, wrapping to
`2^32 - 416`. -/
theorem servo_angle_safety :
    (∀ angle : Nat, angle ≤ 180 →
      ServoPhase.from_angle angle ≤ 1000
      ∧ write_phase_final_delay (ServoPhase.from_angle angle) =
          1000 - ServoPhase.from_angle angle)
  ∧ ServoPhase.from_angle 255 = 1416
  ∧ 1000 < ServoPhase.from_angle 255
  ∧ write_phase_final_delay (ServoPhase.from_angle 255) = U32_MOD - 416 := by
  refine ⟨?_, by decide, by decide, by decide⟩
  intro a ha
  have hv : ServoPhase.from_angle a ≤ 1000 := by
    have hmul : a * 1000 ≤ 180 * 1000 := Nat.mul_le_mul_right _ ha
    simp only [ServoPhase.from_angle]
    omega
  refine ⟨hv, ?_⟩
  simp only [write_phase_final_delay, U32_MOD]
  have h32 : (2 : Nat) ^ 32 = 4294967296 := by norm_num
  rw [h32]
  omega

/-- Witness for C9: the safe branch applied at angle 90. -/
theorem servo_angle_safety_witness :
    (90 : Nat) ≤ 180
  ∧ ServoPhase.from_angle 90 ≤ 1000
  ∧ write_phase_final_delay (ServoPhase.from_angle 90) =
      1000 - ServoPhase.from_angle 90 :=
  ⟨by norm_num,
    (servo_angle_safety.1 90 (by norm_num)).1,
    (servo_angle_safety.1 90 (by norm_num)).2⟩

/-- C10: the two line-bias classifiers are dual: for every
`LinePosition p`, `get_bias_direction_light p` equals
`get_bias_direction_dark` of the position with each sensor state flipped
between `Light` and `Dark`. -/
theorem line_bias_duality :
    ∀ p : LinePosition,
      p.get_bias_direction_light = p.invert.get_bias_direction_dark := by
  intro p
  obtain ⟨l, m, r⟩ := p
  cases l <;> cases m <;> cases r <;> rfl
